import Mathlib

/-!
Verification of the node-side COSI adapter client
(`pkg/node/client.go` of container-object-storage-interface-csi-adapter).

The Go code is shallowly embedded: each remote lookup is a pure function of
an explicit `World` (the state of the remote resource store), returning an
`Except` value for the Go `(value, error)` pair together with the list of
store lookups it performed (so that "never performs lookup X" claims are
statable).  Go errors are modelled by their message strings.
-/

namespace CsiAdapter

deriving instance DecidableEq for Except

/-- A Go `error` value, modelled by its message string. -/
abbrev GoError := String

/-- Go's `%q` verb applied to a string: the string surrounded by double
quotes (escaping of special characters inside the string is not modelled;
all concrete inputs used below contain none). -/
def goQuote (s : String) : String := "\"" ++ s ++ "\""

/-! ### The v1alpha1 API records, restricted to the fields `client.go` reads.

These record types live in the external
`container-object-storage-interface-api` repository; only the fields that
`client.go` accesses are embedded. -/

/-- `BucketAccessRequest.Spec`, restricted to `BucketRequestName`. -/
structure BARSpec where
  bucketRequestName : String
  deriving DecidableEq, Repr

/-- `BucketAccessRequest.Status`: `AccessGranted` and `BucketAccessName`. -/
structure BARStatus where
  accessGranted : Bool
  bucketAccessName : String
  deriving DecidableEq, Repr

/-- A `v1alpha1.BucketAccessRequest` (namespaced). -/
structure BucketAccessRequest where
  spec : BARSpec
  status : BARStatus
  deriving DecidableEq, Repr

/-- `BucketAccess.Spec`, restricted to `BucketName` and `MintedSecretName`. -/
structure BASpec where
  bucketName : String
  mintedSecretName : String
  deriving DecidableEq, Repr

/-- `BucketAccess.Status`: `AccessGranted`. -/
structure BAStatus where
  accessGranted : Bool
  deriving DecidableEq, Repr

/-- A `v1alpha1.BucketAccess` (cluster scoped), with its
`metadata.finalizers` list, which `addBAFinalizer` / `removeBAFinalizer`
manipulate via `controllerutil`. -/
structure BucketAccess where
  finalizers : List String
  spec : BASpec
  status : BAStatus
  deriving DecidableEq, Repr

/-- `BucketRequest.Status`: `BucketAvailable` and `BucketName`. -/
structure BRStatus where
  bucketAvailable : Bool
  bucketName : String
  deriving DecidableEq, Repr

/-- A `v1alpha1.BucketRequest` (namespaced). -/
structure BucketRequest where
  status : BRStatus
  deriving DecidableEq, Repr

/-- `v1alpha1.S3Protocol` connection parameters (field set follows the
COSI v1alpha1 API). -/
structure S3Protocol where
  endpoint : String
  bucketName : String
  region : String
  signatureVersion : String
  deriving DecidableEq, Repr

/-- `v1alpha1.AzureProtocol` connection parameters. -/
structure AzureProtocol where
  containerName : String
  delegatedSubPath : String
  deriving DecidableEq, Repr

/-- `v1alpha1.GCSProtocol` connection parameters. -/
structure GCSProtocol where
  bucketName : String
  privateKeyName : String
  projectID : String
  serviceAccount : String
  deriving DecidableEq, Repr

/-- `v1alpha1.Protocol`: the closed set of protocol-connection variants.
In Go each variant is a possibly-nil pointer, modelled by `Option`. -/
structure Protocol where
  s3 : Option S3Protocol
  azureBlob : Option AzureProtocol
  gcs : Option GCSProtocol
  deriving DecidableEq, Repr

/-- `Bucket.Spec`, restricted to `Protocol`. -/
structure BucketSpec where
  protocol : Protocol
  deriving DecidableEq, Repr

/-- `Bucket.Status`: `BucketAvailable`. -/
structure BucketStatus where
  bucketAvailable : Bool
  deriving DecidableEq, Repr

/-- A `v1alpha1.Bucket` (cluster scoped). -/
structure Bucket where
  spec : BucketSpec
  status : BucketStatus
  deriving DecidableEq, Repr

/-- A `v1.Secret`; `client.go` only passes it through, so its payload is
modelled as an opaque list of key/value pairs. -/
structure Secret where
  data : List (String × String)
  deriving DecidableEq, Repr

/-! ### JSON serialization (`encoding/json.Marshal` at the protocol types).

`json.Marshal` never fails on these plain-struct types, so the embeddings
are total.  String escaping inside values is not modelled (`goQuote`). -/

/-- `json.Marshal` at type `*v1alpha1.S3Protocol`. -/
def marshalS3 (p : S3Protocol) : String :=
  "\x7b\"endpoint\":" ++ goQuote p.endpoint ++
    ",\"bucketName\":" ++ goQuote p.bucketName ++
    ",\"region\":" ++ goQuote p.region ++
    ",\"signatureVersion\":" ++ goQuote p.signatureVersion ++ "\x7d"

/-- `json.Marshal` at type `*v1alpha1.AzureProtocol`. -/
def marshalAzureBlob (p : AzureProtocol) : String :=
  "\x7b\"containerName\":" ++ goQuote p.containerName ++
    ",\"delegatedSubPath\":" ++ goQuote p.delegatedSubPath ++ "\x7d"

/-- `json.Marshal` at type `*v1alpha1.GCSProtocol`. -/
def marshalGCS (p : GCSProtocol) : String :=
  "\x7b\"bucketName\":" ++ goQuote p.bucketName ++
    ",\"privateKeyName\":" ++ goQuote p.privateKeyName ++
    ",\"projectID\":" ++ goQuote p.projectID ++
    ",\"serviceAccount\":" ++ goQuote p.serviceAccount ++ "\x7d"

/-! ### Volume-context keys (constants of `client.go`). -/

def podNameKey : String := "csi.storage.k8s.io/pod.name"

def podNamespaceKey : String := "csi.storage.k8s.io/pod.namespace"

def barNameKey : String := "bar-name"

def barNamespaceKey : String := "bar-namespace"

/-! ### The remote store.

The Kubernetes API server is an external collaborator; a `World` fixes the
response of each get/update endpoint the client uses.  A get returns either
an opaque store error or a pointer which may be nil (`Option`): `client.go`
guards against both.  The core-v1 secret endpoint carries no nil-pointer
guard in `client.go`, so its success case is a plain `Secret`. -/

structure World where
  barStore : String → String → Except GoError (Option BucketAccessRequest)
  baStore : String → Except GoError (Option BucketAccess)
  brStore : String → String → Except GoError (Option BucketRequest)
  bStore : String → Except GoError (Option Bucket)
  secretStore : String → String → Except GoError Secret
  baUpdate : BucketAccess → Except GoError BucketAccess

/-- One remote lookup performed by the client, recorded for trace
reasoning (namespace first where the endpoint is namespaced). -/
inductive Lookup where
  | barGet (ns name : String)
  | baGet (name : String)
  | brGet (ns name : String)
  | bGet (name : String)
  | secretGet (ns name : String)
  deriving DecidableEq, Repr

/-- Whether a lookup is a bucket-request (`BucketRequests().Get`) lookup. -/
def Lookup.isBR : Lookup → Bool
  | .brGet _ _ => true
  | _ => false

/-- Whether a lookup is a bucket-access (`BucketAccesses().Get`) lookup. -/
def Lookup.isBA : Lookup → Bool
  | .baGet _ => true
  | _ => false

/-- Whether a lookup is a bucket (`Buckets().Get`) lookup. -/
def Lookup.isB : Lookup → Bool
  | .bGet _ => true
  | _ => false

/-- Whether a lookup is a secret (`Secrets(ns).Get`) lookup. -/
def Lookup.isSecret : Lookup → Bool
  | .secretGet _ _ => true
  | _ => false

/-! ### Error helpers.

`logErr` and `getError` are called by `client.go` but defined elsewhere in
the repository (not in the provided source). -/

/-- Modelled from the spec: `logErr` (defined outside the provided source)
logs a failure and returns it upward unchanged ("then logged and returned
upward"). -/
def logErr (e : GoError) : GoError := e

/-- Modelled from the spec: `getError` (defined outside the provided
source) wraps a remote-lookup failure "with a short human-readable message
naming the resource kind and identifier". -/
def getError (kind id : String) (e : GoError) : GoError :=
  "failed to get " ++ kind ++ " " ++ id ++ ": " ++ e

/-- `errors.Wrap e msg` from github.com/pkg/errors: message `msg ++ ": " ++ e`. -/
def errorsWrap (e : GoError) (msg : String) : GoError := msg ++ ": " ++ e

/-! ### Error messages of `client.go` (its `fmt.Errorf` calls). -/

def barNilMsg (ns name : String) : GoError :=
  "bucketAccessRequest is nil " ++ goQuote (ns ++ "/" ++ name)

def barNotGrantedMsg (ns name : String) : GoError :=
  "bucketAccessRequest does not grant access " ++ goQuote (ns ++ "/" ++ name)

def barBRNameUnsetMsg : GoError := "bucketAccessRequest.Spec.BucketRequestName unset"

def barBANameUnsetMsg : GoError := "bucketAccessRequest.Spec.BucketAccessName unset"

def baNilMsg (name : String) : GoError :=
  "bucketAccess is nil " ++ goQuote name

def baNotGrantedMsg (name : String) : GoError :=
  "bucketAccess does not grant access " ++ goQuote name

def baMintedUnsetMsg : GoError := "bucketAccess.Spec.MintedSecretName unset"

def brNilMsg (ns name : String) : GoError :=
  "bucketRequest is nil " ++ goQuote (ns ++ "/" ++ name)

def brNotAvailableMsg (ns name : String) : GoError :=
  "bucketRequest is not available yet " ++ goQuote (ns ++ "/" ++ name)

def brBucketNameUnsetMsg : GoError := "bucketRequest.Spec.BucketInstanceName unset"

def bNilMsg (name : String) : GoError :=
  "bucket is nil " ++ goQuote name

def bNotAvailableMsg (name : String) : GoError :=
  "bucket is not available yet " ++ goQuote name

def unrecognizedProtocolMsg : GoError :=
  "unrecognized protocol, unable to extract connection data"

def missingKeyMsg (key : String) : GoError :=
  "required volume context key unset: " ++ key

/-! ### Volume-context parsing (`parseValue`, `parseVolumeContext`).

The Go `map[string]string` is modelled as an association list; each
function also returns the list of keys it looked up. -/

/-- `parseValue`: look up one required key; error names the key. -/
def parseValue (key : String) (volCtx : List (String × String)) :
    Except GoError String × List String :=
  match volCtx.lookup key with
  | none => (.error (missingKeyMsg key), [key])
  | some value => (.ok value, [key])

/-- `parseVolumeContext`: extract the four required keys in the order
bar-name, bar-namespace, pod.name, pod.namespace, stopping at the first
missing one (Go returns `"", "", "", "", err` there). -/
def parseVolumeContext (volCtx : List (String × String)) :
    Except GoError (String × String × String × String) × List String :=
  match parseValue barNameKey volCtx with
  | (.error e, t1) => (.error e, t1)
  | (.ok barname, t1) =>
    match parseValue barNamespaceKey volCtx with
    | (.error e, t2) => (.error e, t1 ++ t2)
    | (.ok barns, t2) =>
      match parseValue podNameKey volCtx with
      | (.error e, t3) => (.error e, t1 ++ t2 ++ t3)
      | (.ok podname, t3) =>
        match parseValue podNamespaceKey volCtx with
        | (.error e, t4) => (.error e, t1 ++ t2 ++ t3 ++ t4)
        | (.ok podns, t4) => (.ok (barname, barns, podname, podns), t1 ++ t2 ++ t3 ++ t4)

/-! ### The leaf lookups. -/

/-- `getBAR`: fetch a `BucketAccessRequest`, requiring a non-nil result,
`Status.AccessGranted`, and non-empty `Spec.BucketRequestName` and
`Status.BucketAccessName`.  The store error is wrapped with
`errors.Wrap(err, "get bucketAccessRequest failed")`. -/
def getBAR (w : World) (barName barNs : String) :
    Except GoError BucketAccessRequest × List Lookup :=
  let tr : List Lookup := [.barGet barNs barName]
  match w.barStore barNs barName with
  | .error e => (.error (errorsWrap e "get bucketAccessRequest failed"), tr)
  | .ok none => (.error (barNilMsg barNs barName), tr)
  | .ok (some bar) =>
    if !bar.status.accessGranted then
      (.error (barNotGrantedMsg barNs barName), tr)
    else if bar.spec.bucketRequestName = "" then
      (.error barBRNameUnsetMsg, tr)
    else if bar.status.bucketAccessName = "" then
      (.error barBANameUnsetMsg, tr)
    else
      (.ok bar, tr)

/-- `getBA`: fetch a `BucketAccess`, requiring a non-nil result,
`Status.AccessGranted`, and non-empty `Spec.MintedSecretName`. -/
def getBA (w : World) (baName : String) :
    Except GoError BucketAccess × List Lookup :=
  let tr : List Lookup := [.baGet baName]
  match w.baStore baName with
  | .error e => (.error (logErr (getError "bucketAccess" baName e)), tr)
  | .ok none => (.error (logErr (baNilMsg baName)), tr)
  | .ok (some ba) =>
    if !ba.status.accessGranted then
      (.error (logErr (baNotGrantedMsg baName)), tr)
    else if ba.spec.mintedSecretName = "" then
      (.error (logErr baMintedUnsetMsg), tr)
    else
      (.ok ba, tr)

/-- `getBR`: fetch a `BucketRequest`, requiring a non-nil result,
`Status.BucketAvailable`, and non-empty `Status.BucketName`. -/
def getBR (w : World) (brName brNs : String) :
    Except GoError BucketRequest × List Lookup :=
  let tr : List Lookup := [.brGet brNs brName]
  match w.brStore brNs brName with
  | .error e => (.error (logErr (getError "bucketRequest" (brNs ++ "/" ++ brName) e)), tr)
  | .ok none => (.error (logErr (brNilMsg brNs brName)), tr)
  | .ok (some br) =>
    if !br.status.bucketAvailable then
      (.error (logErr (brNotAvailableMsg brNs brName)), tr)
    else if br.status.bucketName = "" then
      (.error (logErr brBucketNameUnsetMsg), tr)
    else
      (.ok br, tr)

/-- `getB`: fetch a `Bucket`, requiring a non-nil result and
`Status.BucketAvailable`. -/
def getB (w : World) (bName : String) :
    Except GoError Bucket × List Lookup :=
  let tr : List Lookup := [.bGet bName]
  match w.bStore bName with
  | .error e => (.error (logErr (getError "bucket" bName e)), tr)
  | .ok none => (.error (logErr (bNilMsg bName)), tr)
  | .ok (some bkt) =>
    if !bkt.status.bucketAvailable then
      (.error (logErr (bNotAvailableMsg bName)), tr)
    else
      (.ok bkt, tr)

/-! ### The composite operation. -/

/-- The four named results of `GetResources` (Go named returns
`bkt, ba, secret, err`; a nil pointer / nil error is `none`). -/
structure GetResourcesResult where
  bkt : Option Bucket
  ba : Option BucketAccess
  secret : Option Secret
  err : Option GoError
  deriving DecidableEq, Repr

/-- `GetResources`: chain `getBAR`, `getBA` (by the request's
`Status.BucketAccessName`), `getB` (by the grant's `Spec.BucketName`), and
the core-v1 secret get (namespace `barNs`, name the grant's
`Spec.MintedSecretName`).  On a failed step the remaining Go named returns
keep their current values; the secret-get failure is wrapped only for the
log, the raw store error being returned. -/
def GetResources (w : World) (barName barNs : String) :
    GetResourcesResult × List Lookup :=
  match getBAR w barName barNs with
  | (.error e, t1) => (⟨none, none, none, some e⟩, t1)
  | (.ok bar, t1) =>
    match getBA w bar.status.bucketAccessName with
    | (.error e, t2) => (⟨none, none, none, some e⟩, t1 ++ t2)
    | (.ok ba, t2) =>
      match getB w ba.spec.bucketName with
      | (.error e, t3) => (⟨none, some ba, none, some e⟩, t1 ++ t2 ++ t3)
      | (.ok bkt, t3) =>
        match w.secretStore barNs ba.spec.mintedSecretName with
        | .error e =>
          (⟨some bkt, some ba, none, some e⟩,
            t1 ++ t2 ++ t3 ++ [.secretGet barNs ba.spec.mintedSecretName])
        | .ok s =>
          (⟨some bkt, some ba, some s, none⟩,
            t1 ++ t2 ++ t3 ++ [.secretGet barNs ba.spec.mintedSecretName])

/-! ### Protocol extraction. -/

/-- `getProtocol`: select the first populated variant in the order
S3, AzureBlob, GCS and `json.Marshal` it; error if none is populated. -/
def getProtocol (bkt : Bucket) : Except GoError String :=
  match bkt.spec.protocol.s3, bkt.spec.protocol.azureBlob, bkt.spec.protocol.gcs with
  | some p, _, _ => .ok (marshalS3 p)
  | none, some p, _ => .ok (marshalAzureBlob p)
  | none, none, some p => .ok (marshalGCS p)
  | none, none, none => .error (logErr unrecognizedProtocolMsg)

/-! ### Finalizer toggling.

`controllerutil.AddFinalizer` appends the marker only when it is not yet
in the list; `controllerutil.RemoveFinalizer` removes every occurrence
(both from sigs.k8s.io/controller-runtime, an external dependency). -/

/-- `controllerutil.AddFinalizer` on a finalizer list. -/
def ctrlAddFinalizer (l : List String) (f : String) : List String :=
  if l.contains f then l else l ++ [f]

/-- `controllerutil.RemoveFinalizer` on a finalizer list. -/
def ctrlRemoveFinalizer (l : List String) (f : String) : List String :=
  l.filter (fun x => x ≠ f)

/-- `addBAFinalizer`: add the marker in memory, then `Update`; the
in-memory object is mutated whether or not the update succeeds. -/
def addBAFinalizer (w : World) (ba : BucketAccess) (fin : String) :
    BucketAccess × Option GoError :=
  let ba2 := { ba with finalizers := ctrlAddFinalizer ba.finalizers fin }
  match w.baUpdate ba2 with
  | .error e => (ba2, some e)
  | .ok _ => (ba2, none)

/-- `removeBAFinalizer`: remove the marker in memory, then `Update`. -/
def removeBAFinalizer (w : World) (ba : BucketAccess) (fin : String) :
    BucketAccess × Option GoError :=
  let ba2 := { ba with finalizers := ctrlRemoveFinalizer ba.finalizers fin }
  match w.baUpdate ba2 with
  | .error e => (ba2, some e)
  | .ok _ => (ba2, none)

/-! ### String containment (for "the message names the identifier"). -/

/-- Whether `p` occurs at the start of `s` (on character lists). -/
def charStartsWith : List Char → List Char → Bool
  | _, [] => true
  | [], _ :: _ => false
  | a :: as, b :: bs => a == b && charStartsWith as bs

/-- Whether `p` occurs somewhere inside `s` (on character lists). -/
def charContains : List Char → List Char → Bool
  | [], p => charStartsWith [] p
  | s@(_ :: as), p => charStartsWith s p || charContains as p

/-- Whether the string `sub` occurs inside the string `s`. -/
def strContains (s sub : String) : Bool :=
  charContains s.toList sub.toList

/-! ### Concrete fixtures used by witnesses and counterexamples. -/

/-- A sample populated S3 protocol variant. -/
def p1 : S3Protocol := ⟨"http://s3.example", "bkt-1", "us-east-1", "v4"⟩

/-- A sample approved access request referencing `br-1` and `ba-1`. -/
def bar1 : BucketAccessRequest := ⟨⟨"br-1"⟩, ⟨true, "ba-1"⟩⟩

/-- A sample approved access grant referencing bucket `bkt-1` and the
minted secret `sec-1`. -/
def ba1 : BucketAccess := ⟨[], ⟨"bkt-1", "sec-1"⟩, ⟨true⟩⟩

/-- A sample available bucket with an S3 protocol variant. -/
def bkt1 : Bucket := ⟨⟨⟨some p1, none, none⟩⟩, ⟨true⟩⟩

/-- A sample minted credential secret. -/
def sec1 : Secret := ⟨[("accessKey", "AK"), ("secretKey", "SK")]⟩

/-- A happy-path world: every resource of the `bar-1` chain resolves. -/
def w1 : World where
  barStore := fun ns name => if ns = "ns-1" ∧ name = "bar-1" then .ok (some bar1) else .error "not found"
  baStore := fun name => if name = "ba-1" then .ok (some ba1) else .error "not found"
  brStore := fun _ _ => .error "not found"
  bStore := fun name => if name = "bkt-1" then .ok (some bkt1) else .error "not found"
  secretStore := fun ns name => if ns = "ns-1" ∧ name = "sec-1" then .ok sec1 else .error "not found"
  baUpdate := fun ba => .ok ba

/-- An access grant whose `Spec.MintedSecretName` is empty. -/
def baNoMinted : BucketAccess := ⟨[], ⟨"bkt-1", ""⟩, ⟨true⟩⟩

/-- Like `w1` but the grant has an empty minted-secret name. -/
def wNoMinted : World := { w1 with
  baStore := fun name => if name = "ba-1" then .ok (some baNoMinted) else .error "not found" }

/-- Like `w1` but the access-request endpoint fails with an opaque store error. -/
def wBarErr : World := { w1 with barStore := fun _ _ => .error "boom" }

/-- Like `w1` but the secret endpoint fails with an opaque store error. -/
def wSecretErr : World := { w1 with secretStore := fun _ _ => .error "boom" }

/-! ### Containment lemmas for the message theorems. -/

theorem charStartsWith_refl (p : List Char) : charStartsWith p p = true := by
  induction p with
  | nil => rfl
  | cons a as ih => simp [charStartsWith, ih]

theorem charStartsWith_append (s p t : List Char) (h : charStartsWith s p = true) :
    charStartsWith (s ++ t) p = true := by
  induction s generalizing p with
  | nil =>
    cases p with
    | nil => cases t <;> rfl
    | cons b bs => simp [charStartsWith] at h
  | cons a as ih =>
    cases p with
    | nil => rfl
    | cons b bs =>
      simp only [charStartsWith, Bool.and_eq_true] at h
      simp only [List.cons_append, charStartsWith, Bool.and_eq_true]
      exact ⟨h.1, ih bs h.2⟩

theorem charContains_nil_pat (s : List Char) : charContains s [] = true := by
  cases s with
  | nil => rfl
  | cons a as => simp [charContains, charStartsWith]

theorem charContains_append_left (s t p : List Char) (h : charContains s p = true) :
    charContains (s ++ t) p = true := by
  induction s with
  | nil =>
    cases p with
    | nil => exact charContains_nil_pat t
    | cons b bs => simp [charContains, charStartsWith] at h
  | cons a as ih =>
    simp only [charContains, Bool.or_eq_true] at h
    simp only [List.cons_append, charContains, Bool.or_eq_true]
    cases h with
    | inl h => exact Or.inl (charStartsWith_append _ _ _ h)
    | inr h => exact Or.inr (ih h)

theorem charContains_append_right (s t p : List Char) (h : charContains t p = true) :
    charContains (s ++ t) p = true := by
  induction s with
  | nil => exact h
  | cons a as ih =>
    simp only [List.cons_append, charContains, Bool.or_eq_true]
    exact Or.inr ih

theorem charContains_refl (p : List Char) : charContains p p = true := by
  cases p with
  | nil => rfl
  | cons a as => simp [charContains, Bool.or_eq_true]; exact Or.inl (charStartsWith_refl _)

theorem toList_append (s t : String) : (s ++ t).toList = s.toList ++ t.toList := rfl

theorem strContains_append_left (s t sub : String) (h : strContains s sub = true) :
    strContains (s ++ t) sub = true := by
  unfold strContains at h ⊢
  rw [toList_append]
  exact charContains_append_left _ _ _ h

theorem strContains_append_right (s t sub : String) (h : strContains t sub = true) :
    strContains (s ++ t) sub = true := by
  unfold strContains at h ⊢
  rw [toList_append]
  exact charContains_append_right _ _ _ h

theorem strContains_refl (s : String) : strContains s s = true :=
  charContains_refl _

/-- A quoted string names the string itself. -/
theorem strContains_quote (s : String) : strContains (goQuote s) s = true := by
  unfold goQuote
  exact strContains_append_left _ _ _ (strContains_append_right _ _ _ (strContains_refl s))

/-! ### Claim C2. -/

/-- Claim C2: `getProtocol` inspects the protocol variants in the fixed
priority order S3, AzureBlob, GCS; a populated variant that is first in
priority order yields that variant's JSON serialization (so exactly one
populated variant yields that variant's payload, and when several are
populated the first in priority order wins); zero populated variants yield
an error. -/
theorem getProtocol_priority (bkt : Bucket) :
    (∀ p, bkt.spec.protocol.s3 = some p → getProtocol bkt = .ok (marshalS3 p)) ∧
    (∀ p, bkt.spec.protocol.s3 = none → bkt.spec.protocol.azureBlob = some p →
      getProtocol bkt = .ok (marshalAzureBlob p)) ∧
    (∀ p, bkt.spec.protocol.s3 = none → bkt.spec.protocol.azureBlob = none →
      bkt.spec.protocol.gcs = some p → getProtocol bkt = .ok (marshalGCS p)) ∧
    (bkt.spec.protocol.s3 = none → bkt.spec.protocol.azureBlob = none →
      bkt.spec.protocol.gcs = none → getProtocol bkt = .error unrecognizedProtocolMsg) := by
  refine ⟨fun p hp => ?_, fun p h1 hp => ?_, fun p h1 h2 hp => ?_, fun h1 h2 h3 => ?_⟩ <;>
    simp [getProtocol, logErr, *]

/-- Witness for C2: at the concrete bucket `bkt1` (exactly the S3 variant
populated) the extractor returns the serialized S3 payload. -/
theorem getProtocol_priority_witness : getProtocol bkt1 = .ok (marshalS3 p1) :=
  (getProtocol_priority bkt1).1 p1 rfl

/-! ### Claim C3. -/

/-- Claim C3: on a volume context missing a required key,
`parseVolumeContext` fails with the missing-key error naming the first
absent key in the order bar-name, bar-namespace, pod.name, pod.namespace,
and the keys it looks up are exactly the ones up to and including that
first absent key (no later key is inspected, no error aggregation). -/
theorem parseVolumeContext_first_missing (volCtx : List (String × String)) :
    (volCtx.lookup barNameKey = none →
      parseVolumeContext volCtx = (.error (missingKeyMsg barNameKey), [barNameKey])) ∧
    (∀ v1, volCtx.lookup barNameKey = some v1 → volCtx.lookup barNamespaceKey = none →
      parseVolumeContext volCtx =
        (.error (missingKeyMsg barNamespaceKey), [barNameKey, barNamespaceKey])) ∧
    (∀ v1 v2, volCtx.lookup barNameKey = some v1 → volCtx.lookup barNamespaceKey = some v2 →
      volCtx.lookup podNameKey = none →
      parseVolumeContext volCtx =
        (.error (missingKeyMsg podNameKey), [barNameKey, barNamespaceKey, podNameKey])) ∧
    (∀ v1 v2 v3, volCtx.lookup barNameKey = some v1 → volCtx.lookup barNamespaceKey = some v2 →
      volCtx.lookup podNameKey = some v3 → volCtx.lookup podNamespaceKey = none →
      parseVolumeContext volCtx =
        (.error (missingKeyMsg podNamespaceKey),
          [barNameKey, barNamespaceKey, podNameKey, podNamespaceKey])) := by
  refine ⟨fun h1 => ?_, fun v1 h1 h2 => ?_, fun v1 v2 h1 h2 h3 => ?_,
    fun v1 v2 v3 h1 h2 h3 h4 => ?_⟩ <;>
    simp [parseVolumeContext, parseValue, *]

/-- Witness for C3: the empty volume context fails naming `bar-name` and
looks up only that key. -/
theorem parseVolumeContext_first_missing_witness :
    parseVolumeContext [] = (.error (missingKeyMsg barNameKey), [barNameKey]) :=
  (parseVolumeContext_first_missing []).1 rfl

/-! ### Claim C9. -/

/-- Claim C9: parsing succeeds exactly when all four required keys are
present, with no validation of the values; in particular the context
mapping every required key to the empty string parses successfully and
returns four empty strings. -/
theorem parseVolumeContext_success_iff (volCtx : List (String × String)) :
    ((∃ v, (parseVolumeContext volCtx).1 = .ok v) ↔
      (volCtx.lookup barNameKey).isSome = true ∧
      (volCtx.lookup barNamespaceKey).isSome = true ∧
      (volCtx.lookup podNameKey).isSome = true ∧
      (volCtx.lookup podNamespaceKey).isSome = true) ∧
    parseVolumeContext
        [(barNameKey, ""), (barNamespaceKey, ""), (podNameKey, ""), (podNamespaceKey, "")] =
      (.ok ("", "", "", ""), [barNameKey, barNamespaceKey, podNameKey, podNamespaceKey]) := by
  constructor
  · cases h1 : volCtx.lookup barNameKey <;>
    cases h2 : volCtx.lookup barNamespaceKey <;>
    cases h3 : volCtx.lookup podNameKey <;>
    cases h4 : volCtx.lookup podNamespaceKey <;>
    simp [parseVolumeContext, parseValue, h1, h2, h3, h4]
  · decide

/-- Witness for C9: the all-empty-values context parses to four empty
strings. -/
theorem parseVolumeContext_success_iff_witness :
    parseVolumeContext
        [(barNameKey, ""), (barNamespaceKey, ""), (podNameKey, ""), (podNamespaceKey, "")] =
      (.ok ("", "", "", ""), [barNameKey, barNamespaceKey, podNameKey, podNamespaceKey]) :=
  (parseVolumeContext_success_iff []).2

/-! ### Claim C7. -/

/-- An access grant that already carries the marker `cosi-marker`. -/
def baWithMarker : BucketAccess := ⟨["cosi-marker"], ⟨"bkt-1", "sec-1"⟩, ⟨true⟩⟩

/-- Counterexample to claim C7 as stated: when the marker is already in
the grant's finalizer list, `controllerutil.AddFinalizer` is a no-op but
`RemoveFinalizer` deletes the marker, so add-then-remove does not restore
the original list. -/
theorem finalizer_roundtrip_cex :
    ((removeBAFinalizer w1 (addBAFinalizer w1 baWithMarker "cosi-marker").1
        "cosi-marker").1).finalizers ≠ baWithMarker.finalizers := by decide

/-- The in-memory grant returned by `addBAFinalizer` carries the added
marker whether or not the update succeeds. -/
theorem addBAFinalizer_fst (w : World) (ba : BucketAccess) (fin : String) :
    (addBAFinalizer w ba fin).1 =
      { ba with finalizers := ctrlAddFinalizer ba.finalizers fin } := by
  simp only [addBAFinalizer]
  cases w.baUpdate { ba with finalizers := ctrlAddFinalizer ba.finalizers fin } <;> rfl

/-- The in-memory grant returned by `removeBAFinalizer` has the marker
removed whether or not the update succeeds. -/
theorem removeBAFinalizer_fst (w : World) (ba : BucketAccess) (fin : String) :
    (removeBAFinalizer w ba fin).1 =
      { ba with finalizers := ctrlRemoveFinalizer ba.finalizers fin } := by
  simp only [removeBAFinalizer]
  cases w.baUpdate { ba with finalizers := ctrlRemoveFinalizer ba.finalizers fin } <;> rfl

/-- Add-then-remove on the finalizer list restores it when the marker was
not already present. -/
theorem ctrl_finalizer_roundtrip (l : List String) (fin : String) (h : fin ∉ l) :
    ctrlRemoveFinalizer (ctrlAddFinalizer l fin) fin = l := by
  unfold ctrlAddFinalizer ctrlRemoveFinalizer
  rw [if_neg (by simpa using h)]
  rw [List.filter_append]
  have h1 : l.filter (fun x => x ≠ fin) = l := by
    rw [List.filter_eq_self]
    intro a ha
    have hne : a ≠ fin := fun hx => h (hx ▸ ha)
    simp [hne]
  have h2 : [fin].filter (fun x => x ≠ fin) = ([] : List String) := by simp
  rw [h1, h2, List.append_nil]

/-- Claim C7 amended: adding then removing the same finalizer marker
restores the grant's original finalizer list provided the marker was not
already present before the add. -/
theorem finalizer_roundtrip_amended (w : World) (ba : BucketAccess) (fin : String)
    (h : fin ∉ ba.finalizers) :
    ((removeBAFinalizer w (addBAFinalizer w ba fin).1 fin).1).finalizers = ba.finalizers := by
  rw [addBAFinalizer_fst, removeBAFinalizer_fst]
  exact ctrl_finalizer_roundtrip _ _ h

/-- Witness for C7 (amended) at the concrete grant `ba1` (empty finalizer
list) and the marker `cosi-marker`. -/
theorem finalizer_roundtrip_amended_witness :
    ((removeBAFinalizer w1 (addBAFinalizer w1 ba1 "cosi-marker").1
        "cosi-marker").1).finalizers = ba1.finalizers :=
  finalizer_roundtrip_amended w1 ba1 "cosi-marker" (by decide)

/-! ### Claims C4, C5, C6 (short-circuiting of the composite resolution). -/

/-- Claim C4: when the fetched access request's approval flag is false,
`GetResources` returns an error and performs no access-grant lookup. -/
theorem getResources_denied_request (w : World) (barName barNs : String)
    (bar : BucketAccessRequest)
    (hget : w.barStore barNs barName = .ok (some bar))
    (hdenied : bar.status.accessGranted = false) :
    ((GetResources w barName barNs).1.err).isSome = true ∧
    ((GetResources w barName barNs).2).all (fun l => !l.isBA) = true := by
  constructor <;> simp [GetResources, getBAR, hget, hdenied, Lookup.isBA]

/-- An unapproved access request. -/
def barDenied : BucketAccessRequest := ⟨⟨"br-1"⟩, ⟨false, "ba-1"⟩⟩

/-- Like `w1` but the access request is unapproved. -/
def wBarDenied : World := { w1 with
  barStore := fun ns name =>
    if ns = "ns-1" ∧ name = "bar-1" then .ok (some barDenied) else .error "not found" }

/-- Witness for C4 at the concrete world `wBarDenied`. -/
theorem getResources_denied_request_witness :
    ((GetResources wBarDenied "bar-1" "ns-1").1.err).isSome = true ∧
    ((GetResources wBarDenied "bar-1" "ns-1").2).all (fun l => !l.isBA) = true :=
  getResources_denied_request wBarDenied "bar-1" "ns-1" barDenied (by decide) rfl

/-- Claim C5: when the fetched access grant's approval flag is false or its
minted-secret-name is empty, `GetResources` returns an error and performs
no bucket lookup. -/
theorem getResources_denied_grant (w : World) (barName barNs : String)
    (bar : BucketAccessRequest) (ba : BucketAccess)
    (h1 : w.barStore barNs barName = .ok (some bar))
    (h2 : bar.status.accessGranted = true)
    (h3 : ¬ bar.spec.bucketRequestName = "")
    (h4 : ¬ bar.status.bucketAccessName = "")
    (h5 : w.baStore bar.status.bucketAccessName = .ok (some ba))
    (h6 : ba.status.accessGranted = false ∨ ba.spec.mintedSecretName = "") :
    ((GetResources w barName barNs).1.err).isSome = true ∧
    ((GetResources w barName barNs).2).all (fun l => !l.isB) = true := by
  rcases h6 with h6 | h6
  · constructor <;> simp [GetResources, getBAR, getBA, h1, h2, h3, h4, h5, h6, Lookup.isB]
  · cases hg : ba.status.accessGranted <;> constructor <;>
      simp [GetResources, getBAR, getBA, h1, h2, h3, h4, h5, h6, hg, Lookup.isB]

/-- An unapproved access grant. -/
def baDenied : BucketAccess := ⟨[], ⟨"bkt-1", "sec-1"⟩, ⟨false⟩⟩

/-- Like `w1` but the access grant is unapproved. -/
def wBaDenied : World := { w1 with
  baStore := fun name => if name = "ba-1" then .ok (some baDenied) else .error "not found" }

/-- Witness for C5 at the concrete world `wBaDenied`. -/
theorem getResources_denied_grant_witness :
    ((GetResources wBaDenied "bar-1" "ns-1").1.err).isSome = true ∧
    ((GetResources wBaDenied "bar-1" "ns-1").2).all (fun l => !l.isB) = true :=
  getResources_denied_grant wBaDenied "bar-1" "ns-1" bar1 baDenied
    (by decide) rfl (by decide) (by decide) (by decide) (Or.inl rfl)

/-- Claim C6: when the fetched bucket's availability flag is false,
`GetResources` returns an error and performs no secret lookup. -/
theorem getResources_unavailable_bucket (w : World) (barName barNs : String)
    (bar : BucketAccessRequest) (ba : BucketAccess) (bkt : Bucket)
    (h1 : w.barStore barNs barName = .ok (some bar))
    (h2 : bar.status.accessGranted = true)
    (h3 : ¬ bar.spec.bucketRequestName = "")
    (h4 : ¬ bar.status.bucketAccessName = "")
    (h5 : w.baStore bar.status.bucketAccessName = .ok (some ba))
    (h6 : ba.status.accessGranted = true)
    (h7 : ¬ ba.spec.mintedSecretName = "")
    (h8 : w.bStore ba.spec.bucketName = .ok (some bkt))
    (h9 : bkt.status.bucketAvailable = false) :
    ((GetResources w barName barNs).1.err).isSome = true ∧
    ((GetResources w barName barNs).2).all (fun l => !l.isSecret) = true := by
  constructor <;>
    simp [GetResources, getBAR, getBA, getB, h1, h2, h3, h4, h5, h6, h7, h8, h9,
      Lookup.isSecret]

/-- An unavailable bucket. -/
def bktUnavail : Bucket := ⟨⟨⟨some p1, none, none⟩⟩, ⟨false⟩⟩

/-- Like `w1` but the bucket is not yet available. -/
def wBktUnavail : World := { w1 with
  bStore := fun name => if name = "bkt-1" then .ok (some bktUnavail) else .error "not found" }

/-- Witness for C6 at the concrete world `wBktUnavail`. -/
theorem getResources_unavailable_bucket_witness :
    ((GetResources wBktUnavail "bar-1" "ns-1").1.err).isSome = true ∧
    ((GetResources wBktUnavail "bar-1" "ns-1").2).all (fun l => !l.isSecret) = true :=
  getResources_unavailable_bucket wBktUnavail "bar-1" "ns-1" bar1 ba1 bktUnavail
    (by decide) rfl (by decide) (by decide) (by decide) rfl (by decide) (by decide) rfl

/-! ### Claim C10 (partial results on late failure). -/

/-- Claim C10: when a later step of `GetResources` fails, the values
already resolved are returned alongside the error: a failed bucket lookup
returns the grant non-nil with bucket and secret nil; a failed secret
lookup returns grant and bucket non-nil with the secret nil. -/
theorem getResources_partial_results (w : World) (barName barNs : String) :
    (∀ bar t1 ba t2 e t3,
      getBAR w barName barNs = (.ok bar, t1) →
      getBA w bar.status.bucketAccessName = (.ok ba, t2) →
      getB w ba.spec.bucketName = (.error e, t3) →
      (GetResources w barName barNs).1 = ⟨none, some ba, none, some e⟩) ∧
    (∀ bar t1 ba t2 bkt t3 e,
      getBAR w barName barNs = (.ok bar, t1) →
      getBA w bar.status.bucketAccessName = (.ok ba, t2) →
      getB w ba.spec.bucketName = (.ok bkt, t3) →
      w.secretStore barNs ba.spec.mintedSecretName = .error e →
      (GetResources w barName barNs).1 = ⟨some bkt, some ba, none, some e⟩) := by
  constructor
  · intro bar t1 ba t2 e t3 hbar hba hb
    simp [GetResources, hbar, hba, hb]
  · intro bar t1 ba t2 bkt t3 e hbar hba hb hsec
    simp [GetResources, hbar, hba, hb, hsec]

/-- Like `w1` but the bucket endpoint fails with an opaque store error. -/
def wBErr : World := { w1 with bStore := fun _ => .error "boom" }

/-- Witness for C10: with the bucket endpoint failing, `GetResources`
returns the earlier-fetched grant non-nil, bucket and secret nil, and the
wrapped bucket error. -/
theorem getResources_partial_results_witness :
    (GetResources wBErr "bar-1" "ns-1").1 =
      ⟨none, some ba1, none, some (getError "bucket" "bkt-1" "boom")⟩ :=
  (getResources_partial_results wBErr "bar-1" "ns-1").1 bar1
    [.barGet "ns-1" "bar-1"] ba1 [.baGet "ba-1"] (getError "bucket" "bkt-1" "boom")
    [.bGet "bkt-1"] (by decide) (by decide) (by decide)

/-! ### Claim C1 (the lookup chain of `GetResources`). -/

/-- Counterexample to claim C1 as stated: a run of `GetResources` that
fully succeeds (all connection parameters and the secret resolved) while
performing no bucket-request lookup at all — `getBR` is not part of the
chain. -/
theorem getResources_chain_cex :
    (GetResources w1 "bar-1" "ns-1").1 = ⟨some bkt1, some ba1, some sec1, none⟩ ∧
    ((GetResources w1 "bar-1" "ns-1").2).all (fun l => !l.isBR) = true := by decide

/-- `getBAR` performs exactly its own access-request lookup. -/
theorem getBAR_trace (w : World) (barName barNs : String) :
    (getBAR w barName barNs).2 = [.barGet barNs barName] := by
  unfold getBAR
  rcases w.barStore barNs barName with e | (_ | bar)
  · rfl
  · rfl
  · dsimp only
    split
    · rfl
    · split
      · rfl
      · split <;> rfl

/-- `getBA` performs exactly its own access-grant lookup. -/
theorem getBA_trace (w : World) (baName : String) :
    (getBA w baName).2 = [.baGet baName] := by
  unfold getBA
  rcases w.baStore baName with e | (_ | ba)
  · rfl
  · rfl
  · dsimp only
    split
    · rfl
    · split <;> rfl

/-- `getB` performs exactly its own bucket lookup. -/
theorem getB_trace (w : World) (bName : String) :
    (getB w bName).2 = [.bGet bName] := by
  unfold getB
  rcases w.bStore bName with e | (_ | bkt)
  · rfl
  · rfl
  · dsimp only
    split <;> rfl

/-- Claim C1 amended: `GetResources` resolves the chain of three linked
custom resources — the access request, the access grant, and the bucket —
plus the minted credential secret; no bucket-request lookup is ever
performed as part of the chain (`getBR` exists but is not invoked), and a
successful run performs exactly the access-request, access-grant, bucket
and secret lookups in that order. -/
theorem getResources_chain_amended (w : World) (barName barNs : String) :
    (((GetResources w barName barNs).2).all (fun l => !l.isBR) = true) ∧
    ((GetResources w barName barNs).1.err = none →
      ∃ baName bktName secName,
        (GetResources w barName barNs).2 =
          [.barGet barNs barName, .baGet baName, .bGet bktName,
            .secretGet barNs secName]) := by
  unfold GetResources
  rcases hbar : getBAR w barName barNs with ⟨rb, t1⟩
  have ht1 : t1 = [.barGet barNs barName] := by
    have h := getBAR_trace w barName barNs
    rw [hbar] at h
    exact h
  subst ht1
  cases rb with
  | error e => simp [Lookup.isBR]
  | ok bar =>
    rcases hba : getBA w bar.status.bucketAccessName with ⟨ra, t2⟩
    have ht2 : t2 = [.baGet bar.status.bucketAccessName] := by
      have h := getBA_trace w bar.status.bucketAccessName
      rw [hba] at h
      exact h
    subst ht2
    cases ra with
    | error e => simp [hba, Lookup.isBR]
    | ok ba =>
      rcases hb : getB w ba.spec.bucketName with ⟨rk, t3⟩
      have ht3 : t3 = [.bGet ba.spec.bucketName] := by
        have h := getB_trace w ba.spec.bucketName
        rw [hb] at h
        exact h
      subst ht3
      cases rk with
      | error e => simp [hba, hb, Lookup.isBR]
      | ok bkt =>
        cases hs : w.secretStore barNs ba.spec.mintedSecretName with
        | error e => simp [hba, hb, hs, Lookup.isBR]
        | ok s =>
          refine ⟨by simp [hba, hb, hs, Lookup.isBR], fun _ => ?_⟩
          exact ⟨bar.status.bucketAccessName, ba.spec.bucketName,
            ba.spec.mintedSecretName, by simp [hba, hb, hs]⟩

/-- Witness for C1 (amended): the successful run at `w1` performs exactly
the four chained lookups. -/
theorem getResources_chain_amended_witness :
    ∃ baName bktName secName,
      (GetResources w1 "bar-1" "ns-1").2 =
        [.barGet "ns-1" "bar-1", .baGet baName, .bGet bktName,
          .secretGet "ns-1" secName] :=
  (getResources_chain_amended w1 "bar-1" "ns-1").2 (by decide)

/-! ### Claim C8 (error-message contents). -/

/-- Counterexample to claim C8 as stated, at concrete inputs: the
unset-required-field error of the grant lookup does not name the grant's
identifier `ba-1`; the access-request remote-lookup failure is wrapped
without the request's identifier; and a failed secret lookup makes
`GetResources` return the raw store error, which names neither kind nor
identifier. -/
theorem lookup_error_id_cex :
    ((getBA wNoMinted "ba-1").1 = .error baMintedUnsetMsg ∧
      strContains baMintedUnsetMsg "ba-1" = false) ∧
    ((getBAR wBarErr "bar-1" "ns-1").1 = .error "get bucketAccessRequest failed: boom" ∧
      strContains "get bucketAccessRequest failed: boom" "bar-1" = false) ∧
    ((GetResources wSecretErr "bar-1" "ns-1").1.err = some "boom" ∧
      strContains "boom" "sec-1" = false) := by decide

/-- A `getError` wrap names the resource kind. -/
theorem strContains_getError_kind (kind id e : String) :
    strContains (getError kind id e) kind = true := by
  unfold getError
  exact strContains_append_left _ _ _ (strContains_append_left _ _ _
    (strContains_append_left _ _ _ (strContains_append_left _ _ _
      (strContains_append_right _ _ _ (strContains_refl kind)))))

/-- A `getError` wrap names the resource identifier. -/
theorem strContains_getError_id (kind id e : String) :
    strContains (getError kind id e) id = true := by
  unfold getError
  exact strContains_append_left _ _ _ (strContains_append_left _ _ _
    (strContains_append_right _ _ _ (strContains_refl id)))

/-- A literal followed by a quoted identifier names the identifier. -/
theorem strContains_litQuote (lit s : String) :
    strContains (lit ++ goQuote s) s = true :=
  strContains_append_right _ _ _ (strContains_quote s)

/-- Every error returned by `getBAR` names the kind `bucketAccessRequest`. -/
theorem getBAR_error_kind (w : World) (barName barNs : String) (m : GoError)
    (hm : (getBAR w barName barNs).1 = .error m) :
    strContains m "bucketAccessRequest" = true := by
  unfold getBAR at hm
  rcases h : w.barStore barNs barName with e1 | (_ | bar) <;> rw [h] at hm
  · simp only [Except.error.injEq] at hm
    subst hm
    unfold errorsWrap
    exact strContains_append_left _ _ _ (strContains_append_left _ _ _ (by decide))
  · simp only [Except.error.injEq] at hm
    subst hm
    unfold barNilMsg
    exact strContains_append_left _ _ _ (by decide)
  · dsimp only at hm
    split_ifs at hm with c1 c2 c3 <;> simp only [Except.error.injEq] at hm
    · subst hm
      unfold barNotGrantedMsg
      exact strContains_append_left _ _ _ (by decide)
    · subst hm; decide
    · subst hm; decide

/-- Every error returned by `getBA` names the kind `bucketAccess`. -/
theorem getBA_error_kind (w : World) (baName : String) (m : GoError)
    (hm : (getBA w baName).1 = .error m) :
    strContains m "bucketAccess" = true := by
  unfold getBA at hm
  rcases h : w.baStore baName with e1 | (_ | ba) <;> rw [h] at hm
  · simp only [Except.error.injEq] at hm
    subst hm
    exact strContains_getError_kind _ _ _
  · simp only [Except.error.injEq] at hm
    subst hm
    unfold logErr baNilMsg
    exact strContains_append_left _ _ _ (by decide)
  · dsimp only at hm
    split_ifs at hm with c1 c2 <;> simp only [Except.error.injEq] at hm
    · subst hm
      unfold logErr baNotGrantedMsg
      exact strContains_append_left _ _ _ (by decide)
    · subst hm; decide

/-- Every error returned by `getBR` names the kind `bucketRequest`. -/
theorem getBR_error_kind (w : World) (brName brNs : String) (m : GoError)
    (hm : (getBR w brName brNs).1 = .error m) :
    strContains m "bucketRequest" = true := by
  unfold getBR at hm
  rcases h : w.brStore brNs brName with e1 | (_ | br) <;> rw [h] at hm
  · simp only [Except.error.injEq] at hm
    subst hm
    exact strContains_getError_kind _ _ _
  · simp only [Except.error.injEq] at hm
    subst hm
    unfold logErr brNilMsg
    exact strContains_append_left _ _ _ (by decide)
  · dsimp only at hm
    split_ifs at hm with c1 c2 <;> simp only [Except.error.injEq] at hm
    · subst hm
      unfold logErr brNotAvailableMsg
      exact strContains_append_left _ _ _ (by decide)
    · subst hm; decide

/-- Every error returned by `getB` names the kind `bucket`. -/
theorem getB_error_kind (w : World) (bName : String) (m : GoError)
    (hm : (getB w bName).1 = .error m) :
    strContains m "bucket" = true := by
  unfold getB at hm
  rcases h : w.bStore bName with e1 | (_ | bkt) <;> rw [h] at hm
  · simp only [Except.error.injEq] at hm
    subst hm
    exact strContains_getError_kind _ _ _
  · simp only [Except.error.injEq] at hm
    subst hm
    unfold logErr bNilMsg
    exact strContains_append_left _ _ _ (by decide)
  · dsimp only at hm
    split_ifs at hm with c1
    all_goals simp only [Except.error.injEq] at hm
    subst hm
    unfold logErr bNotAvailableMsg
    exact strContains_append_left _ _ _ (by decide)

/-- Claim C8 amended: every error returned by the four custom-resource
lookups names the resource kind, and the not-ready and nil-result errors
(as well as the spec-modelled `getError` wrap used for the grant, bucket
request, bucket and secret remote failures) also name the resource
identifier; but the unset-required-field errors, the access-request
remote-failure wrap, and the raw secret error returned by `GetResources`
do not carry the identifier (see the counterexample). -/
theorem lookup_error_messages_amended (w : World) (ns name : String) (e : GoError) :
    (∀ m, (getBAR w name ns).1 = .error m → strContains m "bucketAccessRequest" = true) ∧
    (∀ m, (getBA w name).1 = .error m → strContains m "bucketAccess" = true) ∧
    (∀ m, (getBR w name ns).1 = .error m → strContains m "bucketRequest" = true) ∧
    (∀ m, (getB w name).1 = .error m → strContains m "bucket" = true) ∧
    (strContains (barNilMsg ns name) (ns ++ "/" ++ name) = true ∧
      strContains (barNotGrantedMsg ns name) (ns ++ "/" ++ name) = true) ∧
    (strContains (baNilMsg name) name = true ∧
      strContains (baNotGrantedMsg name) name = true) ∧
    (strContains (brNilMsg ns name) (ns ++ "/" ++ name) = true ∧
      strContains (brNotAvailableMsg ns name) (ns ++ "/" ++ name) = true) ∧
    (strContains (bNilMsg name) name = true ∧
      strContains (bNotAvailableMsg name) name = true) ∧
    strContains (getError "secret" name e) name = true := by
  refine ⟨fun m hm => getBAR_error_kind w name ns m hm,
    fun m hm => getBA_error_kind w name m hm,
    fun m hm => getBR_error_kind w name ns m hm,
    fun m hm => getB_error_kind w name m hm,
    ⟨?_, ?_⟩, ⟨?_, ?_⟩, ⟨?_, ?_⟩, ⟨?_, ?_⟩, ?_⟩
  · exact strContains_litQuote _ _
  · exact strContains_litQuote _ _
  · exact strContains_litQuote _ _
  · exact strContains_litQuote _ _
  · exact strContains_litQuote _ _
  · exact strContains_litQuote _ _
  · exact strContains_litQuote _ _
  · exact strContains_litQuote _ _
  · exact strContains_getError_id _ _ _

/-- Witness for C8 (amended): the not-granted error of the grant lookup at
the concrete world `wBaDenied` names both the kind and the identifier. -/
theorem lookup_error_messages_amended_witness :
    strContains (baNotGrantedMsg "ba-1") "bucketAccess" = true ∧
    strContains (baNotGrantedMsg "ba-1") "ba-1" = true :=
  ⟨(lookup_error_messages_amended wBaDenied "ns-1" "ba-1" "boom").2.1
      (baNotGrantedMsg "ba-1") (by decide),
    (lookup_error_messages_amended wBaDenied "ns-1" "ba-1" "boom").2.2.2.2.2.1.2⟩

end CsiAdapter
